import Mathlib

/-!
Verification development for the chicken-parts detection-and-counting notebook
(YOLOv7 detector + ByteTrack tracker).  The definitions below are a shallow
embedding of the core association / counting layer of the notebook
(`Self_ChickOut_Vision.ipynb`): the `Detections` container, the greedy
IoU-based track associator `match_detections_with_tracks`, and the per-frame
orchestration `process_frame` (class filtering, tracker call, association,
per-class counting).  External collaborators (the neural detector, the
ByteTrack `update` call, OpenCV rendering) are modelled as oracles passed in
as function arguments; numeric coordinates and confidences are modelled as
rationals.
-/

namespace ChickOut

/-- Axis-aligned bounding box `(x1, y1, x2, y2)` in pixel coordinates. -/
structure Box where
  x1 : ℚ
  y1 : ℚ
  x2 : ℚ
  y2 : ℚ
deriving DecidableEq, Repr

/-- The all-zero box: a row of `detections.xyxy` whose four coordinates are 0.
`np.any(detections.xyxy)` is `False` exactly when every row equals this box. -/
def zeroBox : Box := ⟨0, 0, 0, 0⟩

/-- Signed area `(x2-x1)*(y2-y1)` of a box. -/
def Box.area (b : Box) : ℚ := (b.x2 - b.x1) * (b.y2 - b.y1)

/-- Modelled from the spec: `box_iou_batch` is imported from the external
`onemetric` library, so its body is not part of this repository.  The spec
(§4.1) fixes the pairwise formula: intersection area
`max(0, min(x2a,x2b)-max(x1a,x1b)) * max(0, min(y2a,y2b)-max(y1a,y1b))`. -/
def interArea (a b : Box) : ℚ :=
  max 0 (min a.x2 b.x2 - max a.x1 b.x1) * max 0 (min a.y2 b.y2 - max a.y1 b.y1)

/-- Modelled from the spec: Intersection-over-Union of one pair of boxes, with
union `area(A)+area(B)-intersection` and IoU defined as 0 when the union is 0
(spec §4.1).  `box_iou_batch(A, B)[i][j] = iou A_i B_j`. -/
def iou (a b : Box) : ℚ :=
  let i := interArea a b
  let u := a.area + b.area - i
  if u = 0 then 0 else i / u

/-- One ByteTrack track as seen by this core: its current box (`tlbr`) and its
stable integer `track_id`.  The tracker's internal state machine is external. -/
structure STrack where
  tlbr : Box
  track_id : Int
deriving DecidableEq, Repr

/-- The notebook's `Detections` container: parallel arrays `xyxy`,
`confidence`, `class_id`, plus `tracker_id`, which the constructor initialises
to `None` (here `none`) and which is later assigned a whole array. -/
structure Detections where
  xyxy : List Box
  confidence : List ℚ
  class_id : List Int
  tracker_id : Option (List (Option Int))
deriving DecidableEq, Repr

/-- The `Detections.__init__` constructor: `tracker_id` starts as `None`. -/
def Detections.make (xyxy : List Box) (confidence : List ℚ) (class_id : List Int) :
    Detections :=
  ⟨xyxy, confidence, class_id, none⟩

/-- Numpy boolean-mask indexing `arr[mask]`: keep the entries whose mask bit
is `true`, in order. -/
def maskSel {α : Type} : List α → List Bool → List α
  | [], _ => []
  | _ :: _, [] => []
  | a :: as, b :: bs => if b then a :: maskSel as bs else maskSel as bs

/-- The notebook's `Detections.filter(mask, inplace)`.  Mutation is made
explicit: the first component of the result is the object's state after the
call (updated in the `inplace` branch, untouched otherwise), the second is the
Python return value (`None` in the `inplace` branch, the fresh `Detections`
otherwise).  Note the copy branch calls the constructor with only three
arguments, so the copy's `tracker_id` is `None` whatever the original held. -/
def Detections.filter (d : Detections) (mask : List Bool) (inplace : Bool) :
    Detections × Option Detections :=
  if inplace then
    ({ xyxy := maskSel d.xyxy mask
       confidence := maskSel d.confidence mask
       class_id := maskSel d.class_id mask
       tracker_id := d.tracker_id.map (fun t => maskSel t mask) }, none)
  else
    (d, some (Detections.make (maskSel d.xyxy mask) (maskSel d.confidence mask)
          (maskSel d.class_id mask)))

/-- Four-way `zip`, as used by `Detections.__iter__`; Python's `zip` truncates
at the shortest input. -/
def zip4 {α β γ δ : Type} : List α → List β → List γ → List δ → List (α × β × γ × δ)
  | a :: as, b :: bs, c :: cs, d :: ds => (a, b, c, d) :: zip4 as bs cs ds
  | _, _, _, _ => []

/-- The notebook's `Detections.__iter__`.  It evaluates
`self.tracker_id.size`, which raises `AttributeError` when `tracker_id` is
still `None`; that error branch is modelled as `none`.  When `tracker_id` is
an (possibly empty) array, iteration zips the four parallel arrays,
substituting `[None] * len(xyxy)` when the `tracker_id` array is empty. -/
def Detections.iterTuples (d : Detections) : Option (List (Box × ℚ × Int × Option Int)) :=
  match d.tracker_id with
  | none => none
  | some t =>
    some (zip4 d.xyxy d.confidence d.class_id
      (if 0 < t.length then t else List.replicate d.xyxy.length none))

/-- `np.argmax` over one row: index of the first maximum (0 on `[]`). -/
def argmaxIdx : List ℚ → Nat
  | [] => 0
  | [_] => 0
  | a :: b :: rest =>
    let j := argmaxIdx (b :: rest)
    if (b :: rest).getD j 0 ≤ a then 0 else j + 1

/-- The notebook's `detections2boxes`: `np.hstack((xyxy, confidence[:, None]))`,
one `[x1, y1, x2, y2, conf]` row per detection. -/
def detections2boxes (d : Detections) : List (Box × ℚ) :=
  d.xyxy.zip d.confidence

/-- The notebook's `tracks2boxes`: the array of `track.tlbr` boxes. -/
def tracks2boxes (tracks : List STrack) : List Box :=
  tracks.map STrack.tlbr

/-- Loop body of `match_detections_with_tracks`: one iteration of
`for tracker_index, detection_index in enumerate(track2detection)`, where the
row's `detection_index = np.argmax` and the write is guarded by
`iou[tracker_index, detection_index] != 0`. -/
def assocStepCode (detBoxes : List Box) (acc : List (Option Int)) (t : STrack) :
    List (Option Int) :=
  let row := detBoxes.map (fun d => iou t.tlbr d)
  let j := argmaxIdx row
  if row.getD j 0 ≠ 0 then acc.set j (some t.track_id) else acc

/-- The notebook's `match_detections_with_tracks`.  The emptiness guard is
`not np.any(detections.xyxy) or len(tracks) == 0`; on a float array `np.any`
is `True` iff some coordinate is non-zero, so its negation says every box is
the all-zero box.  Otherwise the IoU matrix (tracks × detections) is computed,
`np.argmax(iou, axis=1)` picks each track row's first-maximum column, and rows
with non-zero best IoU write their `track_id` into that column's slot,
later rows overwriting earlier ones. -/
def match_detections_with_tracks (detections : Detections) (tracks : List STrack) :
    List (Option Int) :=
  if (∀ b ∈ detections.xyxy, b = zeroBox) ∨ tracks = [] then
    List.replicate detections.xyxy.length none
  else
    tracks.foldl (assocStepCode detections.xyxy)
      (List.replicate detections.xyxy.length none)

/-- Modelled from the spec, §4.2 steps 3–5: the spec's per-row action, with
the assignment guarded by "maximum IoU strictly greater than zero". -/
def assocStepSpec (detBoxes : List Box) (acc : List (Option Int)) (t : STrack) :
    List (Option Int) :=
  let row := detBoxes.map (fun d => iou t.tlbr d)
  let j := argmaxIdx row
  if 0 < row.getD j 0 then acc.set j (some t.track_id) else acc

/-- Modelled from the spec, §4.2 steps 2–5: for each track row in tracker row
order, find the detection column with maximum IoU; when that maximum is
strictly greater than zero assign the track's id to that detection's slot,
overwriting earlier rows' assignments; detections never claimed stay `none`. -/
def specAssociate (tracks : List STrack) (detBoxes : List Box) : List (Option Int) :=
  tracks.foldl (assocStepSpec detBoxes) (List.replicate detBoxes.length none)

/-- Modelled from the spec (claim wording for the copy filter): a copy-mode
filter that mask-selects every parallel field, `tracker_id` included when it
has been assigned. -/
def specFilterCopy (d : Detections) (mask : List Bool) : Detections :=
  { xyxy := maskSel d.xyxy mask
    confidence := maskSel d.confidence mask
    class_id := maskSel d.class_id mask
    tracker_id := d.tracker_id.map (fun t => maskSel t mask) }

/-- One post-NMS raw detection row `[x1, y1, x2, y2, conf, cls]` of `pred[0]`. -/
structure RawDet where
  box : Box
  conf : ℚ
  cls : Int
deriving DecidableEq, Repr

/-- Observable outcome of one `process_frame` call: the `class_counts` dict
(as an insertion-ordered association list), the `chicken_parts` occurrence
list, and the input handed to `byte_tracker.update` (`none` when the tracker
was not invoked at all). -/
structure FrameResult where
  class_counts : List (String × Nat)
  chicken_parts : List String
  tracker_input : Option (List (Box × ℚ))
deriving DecidableEq, Repr

/-- Association-list lookup, as used for `CLASS_NAMES_DICT[class_id]` and
`class_counts.get(name, 0)`. -/
def alookup {α β : Type} [DecidableEq α] : List (α × β) → α → Option β
  | [], _ => none
  | (k, v) :: rest, a => if k = a then some v else alookup rest a

/-- The Python dict update `class_counts[name] = class_counts.get(name, 0) + 1`:
an existing key keeps its position and is incremented, a new key is appended
(dict insertion order). -/
def bump : List (String × Nat) → String → List (String × Nat)
  | [], name => [(name, 1)]
  | (k, v) :: rest, name =>
    if k = name then (k, v + 1) :: rest else (k, v) :: bump rest name

/-- Helper for `firstSeen`: dedup keeping first occurrences, given the set of
names already seen. -/
def firstSeenAux (seen : List String) : List String → List String
  | [] => []
  | a :: l => if a ∈ seen then firstSeenAux seen l else a :: firstSeenAux (seen ++ [a]) l

/-- First-seen-order key sequence of a list of names: each name once, at the
position of its first occurrence. -/
def firstSeen (l : List String) : List String := firstSeenAux [] l

/-- The allow-list test `class_id in CLASS_ID`, with
`CLASS_ID = list(CLASS_NAMES_DICT.keys())`. -/
def allowPred (names : List (Int × String)) (d : RawDet) : Bool :=
  decide (d.cls ∈ names.map Prod.fst)

/-- The detection set `process_frame` works on after the allow-list step: the
`Detections` built from `pred[0]`, filtered in place by the mask
`[class_id in CLASS_ID for class_id in detections.class_id]`. -/
def frameDetections (names : List (Int × String)) (pred0 : List RawDet) : Detections :=
  let dets0 := Detections.make (pred0.map RawDet.box) (pred0.map RawDet.conf)
    (pred0.map RawDet.cls)
  let classIds := names.map Prod.fst
  let mask := dets0.class_id.map (fun c => decide (c ∈ classIds))
  (dets0.filter mask true).1

/-- Body of the annotation loop `for xyxy, confidence, class_id, tracker_id in
detections:`: look the class name up in `CLASS_NAMES_DICT`, update
`class_counts[class_name]` and append to `chicken_parts`. -/
def frameLoop (names : List (Int × String))
    (tuples : List (Box × ℚ × Int × Option Int)) :
    List (String × Nat) × List String :=
  tuples.foldl
    (fun acc tup =>
      let class_name := (alookup names tup.2.2.1).getD ""
      (bump acc.1 class_name, acc.2 ++ [class_name]))
    ([], [])

/-- Core of the notebook's `process_frame`, starting from the post-NMS
prediction rows `pred0 = pred[0]` (the neural inference, resizing and
coordinate rescaling are external).  `names` is `CLASS_NAMES_DICT` as an
association list; `tracker` is the external `byte_tracker.update` oracle.
When `len(pred[0]) > 0` the code builds a `Detections`, filters it in place to
the allow-list `CLASS_ID = list(CLASS_NAMES_DICT.keys())`, hands the filtered
boxes+confidences to the tracker, associates track ids, and then iterates the
detections, growing `class_counts` and `chicken_parts` one detection at a
time; otherwise it returns the initial empty dict and list without touching
the tracker.  `processDetections` is the body of the `len(pred[0]) > 0`
branch after the allow-list filter. -/
def processDetections (names : List (Int × String))
    (tracker : List (Box × ℚ) → List STrack) (dets1 : Detections) : FrameResult :=
  let boxes := detections2boxes dets1
  let tracks := tracker boxes
  let tids := match_detections_with_tracks dets1 tracks
  let dets2 := { dets1 with tracker_id := some tids }
  let tuples := (dets2.iterTuples).getD []
  let folded := frameLoop names tuples
  { class_counts := folded.1, chicken_parts := folded.2, tracker_input := some boxes }

/-- The notebook's `process_frame`, assembled from the pieces above: the
`if len(pred[0]) > 0` guard around build–filter–track–associate–count. -/
def process_frame (names : List (Int × String)) (tracker : List (Box × ℚ) → List STrack)
    (pred0 : List RawDet) : FrameResult :=
  if 0 < pred0.length then
    processDetections names tracker (frameDetections names pred0)
  else
    { class_counts := [], chicken_parts := [], tracker_input := none }

/-- The per-detection class-name sequence a frame should produce: one name per
allow-listed detection, in detection order. -/
def partsOf (names : List (Int × String)) (pred0 : List RawDet) : List String :=
  (pred0.filter (allowPred names)).map (fun d => (alookup names d.cls).getD "")

/-- The `class_counts` dictionary built by repeating the Python update
`class_counts[name] = class_counts.get(name, 0) + 1` over a name sequence. -/
def tally (l : List String) : List (String × Nat) := l.foldl bump []

/-- A tracker collaborator that reports no tracks, used for concrete checks. -/
def nullTracker : List (Box × ℚ) → List STrack := fun _ => []

/-- Concrete box `(0,0,10,10)` (spec §8 example). -/
def b0 : Box := ⟨0, 0, 10, 10⟩

/-- Concrete box `(20,20,30,30)` (spec §8 example). -/
def b1 : Box := ⟨20, 20, 30, 30⟩

/-- Concrete box `(40,40,50,50)`. -/
def b2 : Box := ⟨40, 40, 50, 50⟩

/-- A malformed box: `x1 ≥ x2` and `y1 ≥ y2`. -/
def badBox : Box := ⟨10, 10, 5, 5⟩

/-- Class-name mapping for concrete checks. -/
def exNames : List (Int × String) := [(0, "breast"), (1, "thigh")]

/-- A tracker collaborator that always reports one track with id 7 at `b0`. -/
def exTracker : List (Box × ℚ) → List STrack := fun _ => [⟨⟨0, 0, 10, 10⟩, 7⟩]

/-- Three raw detections: breast 0.9 at `b0`, thigh 0.8 at `b1`, breast 0.7 at `b2`. -/
def exPred : List RawDet := [⟨b0, 9/10, 0⟩, ⟨b1, 4/5, 1⟩, ⟨b2, 7/10, 0⟩]

/-- The detection set built from `exPred`. -/
def dthree : Detections := Detections.make [b0, b1, b2] [9/10, 4/5, 7/10] [0, 1, 0]

/-- A non-empty detection set whose single box is all zero. -/
def dzero : Detections := Detections.make [zeroBox] [1] [0]

/-- A one-detection set whose `tracker_id` has been assigned. -/
def cex7Det : Detections := ⟨[b0], [1], [0], some [some 5]⟩

/-- A two-detection set whose `tracker_id` has been assigned. -/
def cex6Det : Detections := ⟨[b0, b1], [1, 2], [0, 1], some [some 3, none]⟩

section IoULemmas

lemma interArea_nonneg (a b : Box) : 0 ≤ interArea a b :=
  mul_nonneg (le_max_left 0 _) (le_max_left 0 _)

lemma iou_def (a b : Box) : iou a b =
    if a.area + b.area - interArea a b = 0 then 0
    else interArea a b / (a.area + b.area - interArea a b) := rfl

lemma iou_nonneg (a b : Box) : 0 ≤ iou a b := by
  unfold iou
  by_cases hu : a.area + b.area - interArea a b = 0
  · simp [hu]
  · rw [if_neg hu]
    by_cases hi : interArea a b = 0
    · rw [hi, zero_div]
    · have hipos : 0 < interArea a b := lt_of_le_of_ne (interArea_nonneg a b) (Ne.symm hi)
      have hwx : 0 < max 0 (min a.x2 b.x2 - max a.x1 b.x1) := by
        by_contra hcon
        push_neg at hcon
        have hzero : max 0 (min a.x2 b.x2 - max a.x1 b.x1) = 0 :=
          le_antisymm hcon (le_max_left _ _)
        rw [interArea, hzero, zero_mul] at hipos
        exact lt_irrefl 0 hipos
      have hwy : 0 < max 0 (min a.y2 b.y2 - max a.y1 b.y1) := by
        by_contra hcon
        push_neg at hcon
        have hzero : max 0 (min a.y2 b.y2 - max a.y1 b.y1) = 0 :=
          le_antisymm hcon (le_max_left _ _)
        rw [interArea, hzero, mul_zero] at hipos
        exact lt_irrefl 0 hipos
      have hx : 0 < min a.x2 b.x2 - max a.x1 b.x1 := by
        rcases le_or_lt (min a.x2 b.x2 - max a.x1 b.x1) 0 with h | h
        · rw [max_eq_left h] at hwx
          exact absurd hwx (lt_irrefl 0)
        · exact h
      have hy : 0 < min a.y2 b.y2 - max a.y1 b.y1 := by
        rcases le_or_lt (min a.y2 b.y2 - max a.y1 b.y1) 0 with h | h
        · rw [max_eq_left h] at hwy
          exact absurd hwy (lt_irrefl 0)
        · exact h
      have hIeq : interArea a b =
          (min a.x2 b.x2 - max a.x1 b.x1) * (min a.y2 b.y2 - max a.y1 b.y1) := by
        rw [interArea, max_eq_right (le_of_lt hx), max_eq_right (le_of_lt hy)]
      have hxa : min a.x2 b.x2 - max a.x1 b.x1 ≤ a.x2 - a.x1 :=
        sub_le_sub (min_le_left _ _) (le_max_left _ _)
      have hya : min a.y2 b.y2 - max a.y1 b.y1 ≤ a.y2 - a.y1 :=
        sub_le_sub (min_le_left _ _) (le_max_left _ _)
      have hxb : min a.x2 b.x2 - max a.x1 b.x1 ≤ b.x2 - b.x1 :=
        sub_le_sub (min_le_right _ _) (le_max_right _ _)
      have hyb : min a.y2 b.y2 - max a.y1 b.y1 ≤ b.y2 - b.y1 :=
        sub_le_sub (min_le_right _ _) (le_max_right _ _)
      have hIa : interArea a b ≤ a.area := by
        rw [hIeq, Box.area]
        exact mul_le_mul hxa hya (le_of_lt hy) (by linarith)
      have hIb : interArea a b ≤ b.area := by
        rw [hIeq, Box.area]
        exact mul_le_mul hxb hyb (le_of_lt hy) (by linarith)
      have hupos : 0 < a.area + b.area - interArea a b := by linarith
      exact le_of_lt (div_pos hipos hupos)

lemma iou_zeroBox_right (a : Box) : iou a zeroBox = 0 := by
  have hinter : interArea a zeroBox = 0 := by
    have h1 : min a.x2 zeroBox.x2 - max a.x1 zeroBox.x1 ≤ 0 := by
      have hm : min a.x2 zeroBox.x2 ≤ zeroBox.x2 := min_le_right _ _
      have hM : zeroBox.x1 ≤ max a.x1 zeroBox.x1 := le_max_right _ _
      have hz : zeroBox.x2 = zeroBox.x1 := rfl
      linarith
    rw [interArea, max_eq_left h1, zero_mul]
  rw [iou_def, hinter]
  split
  · rfl
  · rw [zero_div]

lemma iou_self (a : Box) (hx : a.x1 < a.x2) (hy : a.y1 < a.y2) : iou a a = 1 := by
  have hinter : interArea a a = a.area := by
    rw [interArea, Box.area, min_self, min_self, max_self, max_self,
      max_eq_right (by linarith : (0:ℚ) ≤ a.x2 - a.x1),
      max_eq_right (by linarith : (0:ℚ) ≤ a.y2 - a.y1)]
  have hpos : 0 < a.area := mul_pos (by linarith) (by linarith)
  rw [iou_def, hinter]
  have hu : a.area + a.area - a.area = a.area := by ring
  rw [hu, if_neg (ne_of_gt hpos), div_self (ne_of_gt hpos)]

lemma iou_of_interArea_eq_zero (a b : Box) (hax : a.x1 < a.x2) (hay : a.y1 < a.y2)
    (hbx : b.x1 < b.x2) (hby : b.y1 < b.y2) (h : interArea a b = 0) : iou a b = 0 := by
  have hpa : 0 < a.area := mul_pos (by linarith) (by linarith)
  have hpb : 0 < b.area := mul_pos (by linarith) (by linarith)
  rw [iou_def, h]
  rw [if_neg (by rw [sub_zero]; exact ne_of_gt (by linarith)), zero_div]

lemma interArea_comm (a b : Box) : interArea a b = interArea b a := by
  rw [interArea, interArea, min_comm a.x2 b.x2, max_comm a.x1 b.x1,
    min_comm a.y2 b.y2, max_comm a.y1 b.y1]

lemma iou_comm (a b : Box) : iou a b = iou b a := by
  rw [iou_def, iou_def, interArea_comm, add_comm a.area b.area]

end IoULemmas

section ListHelpers

lemma getD_mem_or_default {α : Type} :
    ∀ (l : List α) (i : Nat) (d : α), l.getD i d ∈ l ∨ l.getD i d = d
  | [], _, _ => Or.inr rfl
  | a :: _, 0, _ => Or.inl (by simp [List.getD])
  | _ :: as, i + 1, d => by
    rcases getD_mem_or_default as i d with h | h
    · exact Or.inl (by simp [List.getD] at h ⊢; exact Or.inr h)
    · exact Or.inr (by simpa [List.getD] using h)

lemma getD_zero_nonneg (l : List ℚ) (i : Nat) (h : ∀ x ∈ l, 0 ≤ x) : 0 ≤ l.getD i 0 := by
  rcases getD_mem_or_default l i 0 with hm | hd
  · exact h _ hm
  · rw [hd]

lemma getD_zero_eq_zero (l : List ℚ) (i : Nat) (h : ∀ x ∈ l, x = 0) : l.getD i 0 = 0 := by
  rcases getD_mem_or_default l i 0 with hm | hd
  · exact h _ hm
  · exact hd

lemma maskSel_nil_mask {α : Type} (xs : List α) : maskSel xs [] = [] := by
  cases xs <;> rfl

lemma maskSel_sublist {α : Type} :
    ∀ (xs : List α) (m : List Bool), List.Sublist (maskSel xs m) xs
  | [], _ => by simp [maskSel]
  | _ :: _, [] => by simp [maskSel]
  | a :: as, b :: bs => by
    cases b
    · simp only [maskSel, Bool.false_eq_true, if_false]
      exact List.Sublist.cons a (maskSel_sublist as bs)
    · simp only [maskSel, if_true]
      exact List.Sublist.cons₂ a (maskSel_sublist as bs)

lemma maskSel_length_congr {α β : Type} :
    ∀ (m : List Bool) (xs : List α) (ys : List β), xs.length = ys.length →
      (maskSel xs m).length = (maskSel ys m).length
  | [], xs, ys, _ => by rw [maskSel_nil_mask, maskSel_nil_mask]; rfl
  | _ :: _, [], [], _ => rfl
  | _ :: _, [], _ :: _, h => by simp at h
  | _ :: _, _ :: _, [], h => by simp at h
  | b :: bs, _ :: xs, _ :: ys, h => by
    have h' : xs.length = ys.length := by simpa using h
    cases b
    · simpa only [maskSel, Bool.false_eq_true, if_false] using
        maskSel_length_congr bs xs ys h'
    · simp only [maskSel, if_true, List.length_cons]
      rw [maskSel_length_congr bs xs ys h']

lemma maskSel_map {α β : Type} (f : α → β) (p : α → Bool) :
    ∀ l : List α, maskSel (l.map f) (l.map p) = (l.filter p).map f
  | [] => rfl
  | a :: l => by
    simp only [List.map_cons, maskSel, List.filter_cons]
    cases hpa : p a
    · simp only [Bool.false_eq_true, if_false]
      exact maskSel_map f p l
    · simp only [if_true, List.map_cons]
      rw [maskSel_map f p l]

lemma foldl_fixed_of_mem {α β : Type} (f : α → β → α) :
    ∀ (l : List β) (a : α), (∀ x ∈ l, ∀ b, f b x = b) → l.foldl f a = a
  | [], _, _ => rfl
  | x :: l, a, h => by
    rw [List.foldl_cons, h x (by simp)]
    exact foldl_fixed_of_mem f l a (fun y hy b => h y (List.mem_cons_of_mem x hy) b)

lemma foldl_length_inv {α β : Type} (f : List α → β → List α)
    (h : ∀ acc b, (f acc b).length = acc.length) :
    ∀ (l : List β) (init : List α), (l.foldl f init).length = init.length
  | [], _ => rfl
  | x :: l, init => by
    rw [List.foldl_cons, foldl_length_inv f h l (f init x), h]

lemma zip4_map_third {α β γ δ : Type} :
    ∀ (as : List α) (bs : List β) (cs : List γ) (ds : List δ),
      bs.length = as.length → cs.length = as.length → ds.length = as.length →
      (zip4 as bs cs ds).map (fun t : α × β × γ × δ => t.2.2.1) = cs := by
  intro as
  induction as with
  | nil =>
    intro bs cs ds _ hc _
    cases cs with
    | nil => cases bs <;> cases ds <;> rfl
    | cons c cs => simp at hc
  | cons a as ih =>
    intro bs cs ds hb hc hd
    cases bs with
    | nil => simp at hb
    | cons b bs =>
      cases cs with
      | nil => simp at hc
      | cons c cs =>
        cases ds with
        | nil => simp at hd
        | cons d ds =>
          simp only [zip4, List.map_cons]
          rw [ih bs cs ds (by simpa using hb) (by simpa using hc) (by simpa using hd)]

end ListHelpers

section AssociatorLemmas

lemma assocStepCode_length (bs : List Box) (acc : List (Option Int)) (t : STrack) :
    (assocStepCode bs acc t).length = acc.length := by
  simp only [assocStepCode]
  split
  · simp [List.length_set]
  · rfl

lemma assocStep_eq (bs : List Box) (acc : List (Option Int)) (t : STrack) :
    assocStepCode bs acc t = assocStepSpec bs acc t := by
  simp only [assocStepCode, assocStepSpec]
  have hnn : 0 ≤ (bs.map (fun d => iou t.tlbr d)).getD
      (argmaxIdx (bs.map (fun d => iou t.tlbr d))) 0 := by
    apply getD_zero_nonneg
    intro x hx
    obtain ⟨d, _, rfl⟩ := List.mem_map.mp hx
    exact iou_nonneg _ _
  by_cases h : (bs.map (fun d => iou t.tlbr d)).getD
      (argmaxIdx (bs.map (fun d => iou t.tlbr d))) 0 = 0
  · rw [if_neg (fun hne => hne h), if_neg (by rw [h]; exact lt_irrefl 0)]
  · rw [if_pos h, if_pos (lt_of_le_of_ne hnn (Ne.symm h))]

lemma match_length (d : Detections) (ts : List STrack) :
    (match_detections_with_tracks d ts).length = d.xyxy.length := by
  unfold match_detections_with_tracks
  split
  · simp
  · rw [foldl_length_inv (assocStepCode d.xyxy) (assocStepCode_length d.xyxy) ts _]
    simp

end AssociatorLemmas

section CountingLemmas

lemma alookup_bump_self : ∀ (l : List (String × Nat)) (name : String),
    alookup (bump l name) name = some ((alookup l name).getD 0 + 1)
  | [], name => by simp [bump, alookup]
  | (k, v) :: rest, name => by
    by_cases hk : k = name
    · subst hk
      simp [bump, alookup]
    · simp only [bump, if_neg hk, alookup]
      exact alookup_bump_self rest name

lemma alookup_bump_ne : ∀ (l : List (String × Nat)) (name s : String), s ≠ name →
    alookup (bump l name) s = alookup l s
  | [], name, s, h => by
    simp only [bump, alookup]
    rw [if_neg (Ne.symm h)]
  | (k, v) :: rest, name, s, h => by
    by_cases hk : k = name
    · subst hk
      simp only [bump, if_pos rfl, alookup]
      rw [if_neg (fun he => h he.symm), if_neg (fun he => h he.symm)]
    · simp only [bump, if_neg hk, alookup]
      by_cases hks : k = s
      · rw [if_pos hks, if_pos hks]
      · rw [if_neg hks, if_neg hks]
        exact alookup_bump_ne rest name s h

lemma keys_bump_mem : ∀ (l : List (String × Nat)) (name : String),
    name ∈ l.map Prod.fst → (bump l name).map Prod.fst = l.map Prod.fst
  | [], name, h => by simp at h
  | (k, v) :: rest, name, h => by
    by_cases hk : k = name
    · subst hk
      simp [bump]
    · have h' : name ∈ rest.map Prod.fst := by
        simp only [List.map_cons, List.mem_cons] at h
        rcases h with h | h
        · exact absurd h.symm hk
        · exact h
      simp only [bump, if_neg hk, List.map_cons]
      rw [keys_bump_mem rest name h']

lemma keys_bump_not_mem : ∀ (l : List (String × Nat)) (name : String),
    name ∉ l.map Prod.fst → (bump l name).map Prod.fst = l.map Prod.fst ++ [name]
  | [], _, _ => by simp [bump]
  | (k, v) :: rest, name, h => by
    have hk : k ≠ name := by
      intro he
      exact h (by simp [he])
    have h' : name ∉ rest.map Prod.fst := fun hm => h (by simp [hm])
    simp only [bump, if_neg hk, List.map_cons, List.cons_append]
    rw [keys_bump_not_mem rest name h']

lemma foldl_bump_alookup : ∀ (l : List String) (acc : List (String × Nat)) (s : String),
    alookup (l.foldl bump acc) s =
      if l.count s = 0 then alookup acc s
      else some ((alookup acc s).getD 0 + l.count s)
  | [], acc, s => by simp
  | a :: l, acc, s => by
    rw [List.foldl_cons, foldl_bump_alookup l (bump acc a) s]
    by_cases hs : s = a
    · subst hs
      have hc : (s :: l).count s = l.count s + 1 := by simp [List.count_cons]
      rw [alookup_bump_self acc s, hc]
      by_cases hl : l.count s = 0
      · rw [if_pos hl, hl, if_neg (by omega)]
      · rw [if_neg hl, if_neg (by omega)]
        simp only [Option.getD_some, Option.some.injEq]
        omega
    · have hc : (a :: l).count s = l.count s := by
        simp [List.count_cons, hs]
      rw [alookup_bump_ne acc a s hs, hc]

lemma foldl_bump_keys : ∀ (l : List String) (acc : List (String × Nat)),
    (l.foldl bump acc).map Prod.fst =
      acc.map Prod.fst ++ firstSeenAux (acc.map Prod.fst) l
  | [], acc => by simp [firstSeenAux]
  | a :: l, acc => by
    rw [List.foldl_cons, foldl_bump_keys l (bump acc a)]
    by_cases ha : a ∈ acc.map Prod.fst
    · rw [keys_bump_mem acc a ha]
      simp only [firstSeenAux, if_pos ha]
    · rw [keys_bump_not_mem acc a ha]
      simp only [firstSeenAux, if_neg ha]
      rw [List.append_assoc]
      rfl

lemma alookup_tally (l : List String) (s : String) :
    alookup (tally l) s = if l.count s = 0 then none else some (l.count s) := by
  rw [tally, foldl_bump_alookup]
  simp [alookup]

lemma keys_tally (l : List String) :
    (tally l).map Prod.fst = firstSeen l := by
  rw [tally, foldl_bump_keys, firstSeen]
  rfl

lemma frameLoop_eq (names : List (Int × String)) :
    ∀ (tuples : List (Box × ℚ × Int × Option Int)) (c : List (String × Nat))
      (p : List String),
      tuples.foldl
        (fun acc tup =>
          (bump acc.1 ((alookup names tup.2.2.1).getD ""),
           acc.2 ++ [(alookup names tup.2.2.1).getD ""]))
        (c, p) =
      ((tuples.map (fun tup => (alookup names tup.2.2.1).getD "")).foldl bump c,
       p ++ tuples.map (fun tup => (alookup names tup.2.2.1).getD ""))
  | [], c, p => by simp
  | t :: l, c, p => by
    simp only [List.foldl_cons, List.map_cons]
    rw [frameLoop_eq names l (bump c ((alookup names t.2.2.1).getD ""))
      (p ++ [(alookup names t.2.2.1).getD ""])]
    simp [List.append_assoc]

lemma frameLoop_def (names : List (Int × String))
    (tuples : List (Box × ℚ × Int × Option Int)) :
    frameLoop names tuples =
      (tally (tuples.map (fun tup => (alookup names tup.2.2.1).getD "")),
       tuples.map (fun tup => (alookup names tup.2.2.1).getD "")) := by
  rw [frameLoop, tally]
  rw [frameLoop_eq names tuples [] []]
  simp

end CountingLemmas

section FrameLemmas

lemma filter_inplace_def (d : Detections) (m : List Bool) :
    (d.filter m true).1 =
      { xyxy := maskSel d.xyxy m
        confidence := maskSel d.confidence m
        class_id := maskSel d.class_id m
        tracker_id := d.tracker_id.map (fun t => maskSel t m) } := rfl

lemma filter_copy_def (d : Detections) (m : List Bool) :
    d.filter m false =
      (d, some (Detections.make (maskSel d.xyxy m) (maskSel d.confidence m)
        (maskSel d.class_id m))) := rfl

lemma frameDetections_def (names : List (Int × String)) (pred0 : List RawDet) :
    frameDetections names pred0 =
      { xyxy := (pred0.filter (allowPred names)).map RawDet.box
        confidence := (pred0.filter (allowPred names)).map RawDet.conf
        class_id := (pred0.filter (allowPred names)).map RawDet.cls
        tracker_id := none } := by
  unfold frameDetections
  rw [filter_inplace_def]
  simp only [Detections.make]
  rw [List.map_map]
  have hcomp : ((fun c => decide (c ∈ names.map Prod.fst)) ∘ RawDet.cls) =
      allowPred names := rfl
  rw [hcomp, maskSel_map RawDet.box (allowPred names) pred0,
    maskSel_map RawDet.conf (allowPred names) pred0,
    maskSel_map RawDet.cls (allowPred names) pred0]
  rfl

lemma zip4_map_name (names : List (Int × String)) (as : List Box) (bs : List ℚ)
    (cs : List Int) (ds : List (Option Int)) (hb : bs.length = as.length)
    (hc : cs.length = as.length) (hd : ds.length = as.length) :
    (zip4 as bs cs ds).map (fun tup => (alookup names tup.2.2.1).getD "") =
      cs.map (fun c => (alookup names c).getD "") := by
  have h := zip4_map_third as bs cs ds hb hc hd
  have h2 : (zip4 as bs cs ds).map (fun tup => (alookup names tup.2.2.1).getD "") =
      ((zip4 as bs cs ds).map (fun t : Box × ℚ × Int × Option Int => t.2.2.1)).map
        (fun c => (alookup names c).getD "") := by
    rw [List.map_map]
    rfl
  rw [h2, h]

lemma processDetections_eq (names : List (Int × String))
    (tracker : List (Box × ℚ) → List STrack) (X : List Box) (C : List ℚ) (K : List Int)
    (hc : C.length = X.length) (hk : K.length = X.length) :
    processDetections names tracker ⟨X, C, K, none⟩ =
      { class_counts := tally (K.map (fun c => (alookup names c).getD ""))
        chicken_parts := K.map (fun c => (alookup names c).getD "")
        tracker_input := some (X.zip C) } := by
  have hm : (match_detections_with_tracks ⟨X, C, K, none⟩
      (tracker (X.zip C))).length = X.length := match_length _ _
  have ht4 : (if 0 < (match_detections_with_tracks ⟨X, C, K, none⟩
        (tracker (X.zip C))).length
      then match_detections_with_tracks ⟨X, C, K, none⟩ (tracker (X.zip C))
      else List.replicate X.length none).length = X.length := by
    split
    · exact hm
    · simp
  simp only [processDetections, detections2boxes, Detections.iterTuples, Option.getD_some]
  rw [frameLoop_def]
  rw [zip4_map_name names X C K _ hc hk ht4]

lemma process_frame_pos (names : List (Int × String))
    (tracker : List (Box × ℚ) → List STrack) (pred0 : List RawDet) (h : pred0 ≠ []) :
    process_frame names tracker pred0 =
      { class_counts := tally (partsOf names pred0)
        chicken_parts := partsOf names pred0
        tracker_input :=
          some ((pred0.filter (allowPred names)).map (fun d => (d.box, d.conf))) } := by
  have hlen : 0 < pred0.length := List.length_pos.mpr h
  unfold process_frame
  rw [if_pos hlen, frameDetections_def,
    processDetections_eq names tracker _ _ _ (by simp) (by simp)]
  rw [List.map_map, List.zip_map']
  rfl

lemma process_frame_neg (names : List (Int × String))
    (tracker : List (Box × ℚ) → List STrack) :
    process_frame names tracker [] =
      { class_counts := [], chicken_parts := [], tracker_input := none } := rfl

end FrameLemmas

/-- C1: for every non-empty track list and non-empty detection set, the
associator's output is exactly the spec's greedy row-order algorithm
(first-maximum column per track row, assignment on strictly positive IoU,
last-writer-wins), and it is one optional id per detection, aligned by
index.  The code's guard `not np.any(xyxy)` and write condition `iou != 0`
coincide with the spec's algorithm because every IoU value is non-negative
and the IoU of an all-zero box with anything is 0. -/
theorem C1_greedy_association (detections : Detections) (tracks : List STrack)
    (_hd : detections.xyxy ≠ []) (ht : tracks ≠ []) :
    match_detections_with_tracks detections tracks = specAssociate tracks detections.xyxy ∧
    (match_detections_with_tracks detections tracks).length = detections.xyxy.length := by
  refine ⟨?_, match_length detections tracks⟩
  unfold match_detections_with_tracks specAssociate
  by_cases hz : ∀ b ∈ detections.xyxy, b = zeroBox
  · rw [if_pos (Or.inl hz)]
    symm
    apply foldl_fixed_of_mem
    intro t _ acc
    simp only [assocStepSpec]
    have hv : (detections.xyxy.map (fun d => iou t.tlbr d)).getD
        (argmaxIdx (detections.xyxy.map (fun d => iou t.tlbr d))) 0 = 0 := by
      apply getD_zero_eq_zero
      intro x hx
      obtain ⟨d, hd', rfl⟩ := List.mem_map.mp hx
      rw [hz d hd', iou_zeroBox_right]
    rw [hv, if_neg (lt_irrefl 0)]
  · rw [if_neg ?hguard]
    case hguard =>
      rintro (h | h)
      · exact hz h
      · exact ht h
    exact List.foldl_ext _ _ _ fun acc t _ => assocStep_eq detections.xyxy acc t

/-- Witness for C1 at the spec §8 scenario: one track whose box equals the
first of three detections. -/
theorem C1_greedy_association_witness :
    match_detections_with_tracks dthree [⟨⟨0, 0, 10, 10⟩, 3⟩] =
      specAssociate [⟨⟨0, 0, 10, 10⟩, 3⟩] dthree.xyxy ∧
    (match_detections_with_tracks dthree [⟨⟨0, 0, 10, 10⟩, 3⟩]).length =
      dthree.xyxy.length :=
  C1_greedy_association dthree [⟨⟨0, 0, 10, 10⟩, 3⟩] (by decide) (by decide)

/-- C2: with no detections or no tracks, `match_detections_with_tracks`
returns one `none` per detection; it is a total function, so no error is
possible. -/
theorem C2_empty_inputs_give_nulls (detections : Detections) (tracks : List STrack)
    (h : detections.xyxy = [] ∨ tracks = []) :
    match_detections_with_tracks detections tracks =
      List.replicate detections.xyxy.length none := by
  unfold match_detections_with_tracks
  rcases h with h | h
  · rw [if_pos (Or.inl (by rw [h]; intro b hb; exact absurd hb (List.not_mem_nil b)))]
  · rw [if_pos (Or.inr h)]

/-- Witness for C2: zero tracks against three detections yields three nulls. -/
theorem C2_empty_inputs_give_nulls_witness :
    match_detections_with_tracks dthree [] = List.replicate 3 none := by
  have h := C2_empty_inputs_give_nulls dthree [] (Or.inr rfl)
  simpa using h

/-- C9: whenever every coordinate of every detection box is zero, the guard
`not np.any(detections.xyxy)` treats the set as empty and the associator
returns all nulls without associating, whatever tracks exist. -/
theorem C9_zero_boxes_guard (detections : Detections) (tracks : List STrack)
    (h : ∀ b ∈ detections.xyxy, b = zeroBox) :
    match_detections_with_tracks detections tracks =
      List.replicate detections.xyxy.length none := by
  unfold match_detections_with_tracks
  rw [if_pos (Or.inl h)]

/-- Witness for C9: a non-empty detection set (one all-zero box) and a
non-empty track list still produce all-null ids. -/
theorem C9_zero_boxes_guard_witness :
    match_detections_with_tracks dzero [⟨⟨0, 0, 5, 5⟩, 7⟩] = List.replicate 1 none ∧
    dzero.xyxy ≠ [] ∧ ([⟨⟨0, 0, 5, 5⟩, 7⟩] : List STrack) ≠ [] := by
  refine ⟨?_, by decide, by decide⟩
  have h := C9_zero_boxes_guard dzero [⟨⟨0, 0, 5, 5⟩, 7⟩] (by decide)
  simpa using h

/-- C10: iterating a `Detections` fails (the `AttributeError` branch,
modelled as `none`) exactly when `tracker_id` has not been assigned, because
`__iter__` reads `self.tracker_id.size` before yielding anything. -/
theorem C10_iter_requires_tracker_id (d : Detections) :
    d.iterTuples = none ↔ d.tracker_id = none := by
  cases h : d.tracker_id <;> simp [Detections.iterTuples, h]

/-- C3 counterexample: a raw detection whose box violates `x1 < x2` and
`y1 < y2` but whose class is allow-listed is handed to the tracker unchanged;
`process_frame` never checks box well-formedness. -/
theorem C3_malformed_box_reaches_tracker_cex :
    (process_frame [(0, "breast")] nullTracker [⟨badBox, 9/10, 0⟩]).tracker_input =
      some [(badBox, 9/10)] ∧
    ¬(badBox.x1 < badBox.x2 ∧ badBox.y1 < badBox.y2) :=
  ⟨rfl, by decide⟩

/-- C3 amended: the only pre-tracking filter is the class allow-list; the
detections handed to the tracker are exactly the allow-listed ones,
regardless of whether their boxes satisfy `x1 < x2` and `y1 < y2`. -/
theorem C3_filter_ignores_box_validity (names : List (Int × String))
    (tracker : List (Box × ℚ) → List STrack) (pred0 : List RawDet) (h : pred0 ≠ []) :
    (process_frame names tracker pred0).tracker_input =
      some ((pred0.filter (allowPred names)).map (fun d => (d.box, d.conf))) := by
  rw [process_frame_pos names tracker pred0 h]

/-- Witness for the amended C3: the malformed-box frame instantiates it. -/
theorem C3_filter_ignores_box_validity_witness :
    ([⟨badBox, 9/10, 0⟩] : List RawDet) ≠ [] ∧
    (process_frame [(0, "breast")] nullTracker [⟨badBox, 9/10, 0⟩]).tracker_input =
      some ((([⟨badBox, 9/10, 0⟩] : List RawDet).filter
        (allowPred [(0, "breast")])).map (fun d => (d.box, d.conf))) :=
  ⟨by decide,
   C3_filter_ignores_box_validity [(0, "breast")] nullTracker [⟨badBox, 9/10, 0⟩]
     (by decide)⟩

/-- C4 counterexample: a frame with zero raw detections has no detections
after filtering, yet `process_frame` skips the whole `len(pred[0]) > 0` block
and never invokes the tracker collaborator. -/
theorem C4_no_tracker_call_on_empty_frame_cex :
    (process_frame exNames exTracker []).tracker_input = none ∧
    (process_frame exNames exTracker []).class_counts = [] ∧
    (process_frame exNames exTracker []).chicken_parts = [] :=
  ⟨rfl, rfl, rfl⟩

/-- C4 amended: when at least one raw detection exists but none survives the
allow-list filter, the Frame Processor returns empty counts and an empty
occurrence sequence and still calls the tracker with empty input; a frame
with zero raw detections returns empty results without any tracker call
(established by the counterexample). -/
theorem C4_empty_after_filter (names : List (Int × String))
    (tracker : List (Box × ℚ) → List STrack) (pred0 : List RawDet) (h1 : pred0 ≠ [])
    (h2 : ∀ d ∈ pred0, d.cls ∉ names.map Prod.fst) :
    (process_frame names tracker pred0).class_counts = [] ∧
    (process_frame names tracker pred0).chicken_parts = [] ∧
    (process_frame names tracker pred0).tracker_input = some [] := by
  have hf : pred0.filter (allowPred names) = [] := by
    rw [List.filter_eq_nil_iff]
    intro d hd
    simp [allowPred, h2 d hd]
  rw [process_frame_pos names tracker pred0 h1]
  simp [partsOf, hf, tally]

/-- Witness for the amended C4: one raw detection of a class outside the
allow-list. -/
theorem C4_empty_after_filter_witness :
    (process_frame [(0, "breast")] nullTracker [⟨b0, 1, 5⟩]).class_counts = [] ∧
    (process_frame [(0, "breast")] nullTracker [⟨b0, 1, 5⟩]).chicken_parts = [] ∧
    (process_frame [(0, "breast")] nullTracker [⟨b0, 1, 5⟩]).tracker_input = some [] :=
  C4_empty_after_filter [(0, "breast")] nullTracker [⟨b0, 1, 5⟩] (by decide) (by decide)

/-- C5: the occurrence sequence lists one class name per allow-listed
detection in detection order (independently of the tracker's output, so
counts are not deduplicated by `tracker_id` and null ids are included);
`class_counts` maps each name to its number of detections, with keys in
first-seen order; and the spec's breast/thigh example evaluates as stated. -/
theorem C5_class_counts_per_detection (names : List (Int × String))
    (tracker : List (Box × ℚ) → List STrack) (pred0 : List RawDet) :
    (process_frame names tracker pred0).chicken_parts = partsOf names pred0 ∧
    (process_frame names tracker pred0).class_counts.map Prod.fst =
      firstSeen (process_frame names tracker pred0).chicken_parts ∧
    (∀ s, alookup (process_frame names tracker pred0).class_counts s =
      if (process_frame names tracker pred0).chicken_parts.count s = 0 then none
      else some ((process_frame names tracker pred0).chicken_parts.count s)) ∧
    (process_frame exNames exTracker exPred).class_counts =
      [("breast", 2), ("thigh", 1)] ∧
    (process_frame exNames exTracker exPred).chicken_parts =
      ["breast", "thigh", "breast"] := by
  have hconc1 : (process_frame exNames exTracker exPred).class_counts =
      [("breast", 2), ("thigh", 1)] := by
    rw [process_frame_pos exNames exTracker exPred (by decide)]
    rfl
  have hconc2 : (process_frame exNames exTracker exPred).chicken_parts =
      ["breast", "thigh", "breast"] := by
    rw [process_frame_pos exNames exTracker exPred (by decide)]
    rfl
  by_cases h : pred0 = []
  · subst h
    exact ⟨rfl, rfl, fun s => rfl, hconc1, hconc2⟩
  · rw [process_frame_pos names tracker pred0 h]
    exact ⟨rfl, keys_tally _, fun s => alookup_tally _ s, hconc1, hconc2⟩

/-- C6: in-place filtering by a mask of matching length keeps all parallel
arrays (`tracker_id` included once assigned) at equal lengths and keeps
survivors in their original relative order (each filtered array is a sublist
of the original). -/
theorem C6_inplace_filter_alignment (d : Detections) (mask : List Bool) (N : Nat)
    (hx : d.xyxy.length = N) (hc : d.confidence.length = N) (hk : d.class_id.length = N)
    (_hm : mask.length = N)
    (ht : ∀ t, d.tracker_id = some t → t.length = N) :
    ((d.filter mask true).1.confidence.length = (d.filter mask true).1.xyxy.length) ∧
    ((d.filter mask true).1.class_id.length = (d.filter mask true).1.xyxy.length) ∧
    (∀ t', (d.filter mask true).1.tracker_id = some t' →
      t'.length = (d.filter mask true).1.xyxy.length) ∧
    List.Sublist (d.filter mask true).1.xyxy d.xyxy ∧
    List.Sublist (d.filter mask true).1.confidence d.confidence ∧
    List.Sublist (d.filter mask true).1.class_id d.class_id ∧
    (∀ t t', d.tracker_id = some t → (d.filter mask true).1.tracker_id = some t' →
      List.Sublist t' t) := by
  rw [filter_inplace_def]
  refine ⟨maskSel_length_congr mask _ _ (by rw [hc, hx]),
    maskSel_length_congr mask _ _ (by rw [hk, hx]), ?_, maskSel_sublist _ _,
    maskSel_sublist _ _, maskSel_sublist _ _, ?_⟩
  · intro t' h'
    cases hdt : d.tracker_id with
    | none =>
      rw [hdt] at h'
      exact absurd h' (by simp)
    | some t =>
      rw [hdt] at h'
      have h'' : maskSel t mask = t' := by simpa using h'
      rw [← h'']
      exact maskSel_length_congr mask t d.xyxy (by rw [ht t hdt, hx])
  · intro t t' h1 h2
    rw [h1] at h2
    have h'' : maskSel t mask = t' := by simpa using h2
    rw [← h'']
    exact maskSel_sublist t mask

/-- Witness for C6 at a two-detection set with assigned tracker ids. -/
theorem C6_inplace_filter_alignment_witness :
    ((cex6Det.filter [true, false] true).1.confidence.length =
      (cex6Det.filter [true, false] true).1.xyxy.length) ∧
    ((cex6Det.filter [true, false] true).1.class_id.length =
      (cex6Det.filter [true, false] true).1.xyxy.length) ∧
    (∀ t', (cex6Det.filter [true, false] true).1.tracker_id = some t' →
      t'.length = (cex6Det.filter [true, false] true).1.xyxy.length) ∧
    List.Sublist (cex6Det.filter [true, false] true).1.xyxy cex6Det.xyxy ∧
    List.Sublist (cex6Det.filter [true, false] true).1.confidence cex6Det.confidence ∧
    List.Sublist (cex6Det.filter [true, false] true).1.class_id cex6Det.class_id ∧
    (∀ t t', cex6Det.tracker_id = some t →
      (cex6Det.filter [true, false] true).1.tracker_id = some t' →
      List.Sublist t' t) :=
  C6_inplace_filter_alignment cex6Det [true, false] 2 rfl rfl rfl rfl
    (by
      intro t h
      have ht : [some 3, none] = t := by simpa [cex6Det] using h
      rw [← ht]
      rfl)

/-- C7 counterexample: copy-mode filtering of a `Detections` whose
`tracker_id` has been assigned does not return the mask-selected
`tracker_id`; the constructor call in the copy branch resets it to `None`. -/
theorem C7_copy_drops_tracker_id_cex :
    (cex7Det.filter [true] false).2 ≠ some (specFilterCopy cex7Det [true]) ∧
    cex7Det.tracker_id = some [some 5] := by
  constructor
  · decide
  · rfl

/-- C7 amended: copy-mode filtering leaves the original untouched and returns
a fresh `Detections` holding the mask-selected `xyxy`, `confidence` and
`class_id` — aligned and order-preserving — but with `tracker_id` unset
(`None`), whatever the original's `tracker_id` held. -/
theorem C7_copy_filter (d : Detections) (mask : List Bool) (N : Nat)
    (hx : d.xyxy.length = N) (hc : d.confidence.length = N) (hk : d.class_id.length = N)
    (_hm : mask.length = N) :
    (d.filter mask false).1 = d ∧
    (d.filter mask false).2 = some (Detections.make (maskSel d.xyxy mask)
      (maskSel d.confidence mask) (maskSel d.class_id mask)) ∧
    (∀ e, (d.filter mask false).2 = some e →
      e.tracker_id = none ∧
      e.confidence.length = e.xyxy.length ∧ e.class_id.length = e.xyxy.length ∧
      List.Sublist e.xyxy d.xyxy ∧ List.Sublist e.confidence d.confidence ∧
      List.Sublist e.class_id d.class_id) := by
  refine ⟨rfl, rfl, ?_⟩
  intro e he
  rw [filter_copy_def] at he
  have he' : Detections.make (maskSel d.xyxy mask) (maskSel d.confidence mask)
      (maskSel d.class_id mask) = e := by simpa using he
  rw [← he']
  exact ⟨rfl, maskSel_length_congr mask _ _ (by rw [hc, hx]),
    maskSel_length_congr mask _ _ (by rw [hk, hx]), maskSel_sublist _ _,
    maskSel_sublist _ _, maskSel_sublist _ _⟩

/-- Witness for the amended C7 at a one-detection set with assigned id. -/
theorem C7_copy_filter_witness :
    (cex7Det.filter [true] false).1 = cex7Det ∧
    (cex7Det.filter [true] false).2 = some (Detections.make
      (maskSel cex7Det.xyxy [true]) (maskSel cex7Det.confidence [true])
      (maskSel cex7Det.class_id [true])) ∧
    (∀ e, (cex7Det.filter [true] false).2 = some e →
      e.tracker_id = none ∧
      e.confidence.length = e.xyxy.length ∧ e.class_id.length = e.xyxy.length ∧
      List.Sublist e.xyxy cex7Det.xyxy ∧ List.Sublist e.confidence cex7Det.confidence ∧
      List.Sublist e.class_id cex7Det.class_id) :=
  C7_copy_filter cex7Det [true] 1 rfl rfl rfl rfl

/-- C8: for the spec's IoU formula, `IoU(A,A) = 1` for every valid box with
positive area, `IoU(A,B) = 0` for valid boxes with empty intersection, and
IoU is symmetric. -/
theorem C8_iou_properties :
    (∀ a : Box, a.x1 < a.x2 → a.y1 < a.y2 → iou a a = 1) ∧
    (∀ a b : Box, a.x1 < a.x2 → a.y1 < a.y2 → b.x1 < b.x2 → b.y1 < b.y2 →
      interArea a b = 0 → iou a b = 0) ∧
    (∀ a b : Box, a.x1 < a.x2 → a.y1 < a.y2 → b.x1 < b.x2 → b.y1 < b.y2 →
      iou a b = iou b a) :=
  ⟨iou_self, iou_of_interArea_eq_zero, fun a b _ _ _ _ => iou_comm a b⟩

/-- Witness for C8 at the spec §8 boxes `(0,0,10,10)` and `(20,20,30,30)`. -/
theorem C8_iou_properties_witness :
    iou b0 b0 = 1 ∧ iou b0 b1 = 0 ∧ iou b0 b1 = iou b1 b0 :=
  ⟨C8_iou_properties.1 b0 (by decide) (by decide),
   C8_iou_properties.2.1 b0 b1 (by decide) (by decide) (by decide) (by decide)
     (by norm_num [interArea, b0, b1]),
   C8_iou_properties.2.2 b0 b1 (by decide) (by decide) (by decide) (by decide)⟩

end ChickOut
